import Mathlib

/-!
# Win_Pipe_API/winpipe.c : File handle lifecycle and I/O

A shallow embedding of `winpipe.c`.  The C functions become Lean functions with
the same names.  State is passed explicitly:

* a `File` value is the contents of the C `File` struct;
* a pointer is `Option`: `none` is `NULL`, `some bs` is a live block holding the
  bytes `bs`;
* a `HANDLE` is the number it holds, `NULL` being `0`;
* every call into Win32, the C library or the Lua registry that touches a
  resource is recorded, in program order, as an `Event`; so is every indexed
  store the code makes into one of its two byte buffers, together with the
  index used, so that memory safety is a property of the trace;
* what the operating system answers (the handle `CreateFile` returns, the bytes
  `ReadFile` delivers, the text `FormatMessage` produces, ...) is a parameter.
-/

namespace WinPipe

/-! ## Data model -/

/-- A Win32 `HANDLE`, as the number it holds. -/
abbrev HANDLE := Nat

/-- The null handle. -/
def NULL : HANDLE := 0

/-- The value `(HANDLE)-1` on a 64-bit target. -/
def INVALID_HANDLE_VALUE : HANDLE := 2 ^ 64 - 1

/-- The macro `FILE_BUFF_SIZE` (`winpipe.c:28`). -/
def FILE_BUFF_SIZE : Int := 2048

/-- The size of `static char errbuff[256]` in `last_error`. -/
def ERRBUFF_SIZE : Nat := 256

/-- The constants or-ed into `mode` in `l_open_pipe`. -/
def PIPE_READMODE_MESSAGE : Nat := 2

/-- Non-blocking pipe mode flag. -/
def PIPE_NOWAIT : Nat := 1

/-- The struct `File` (`winpipe.c:157`): the fields of `callback_data_` followed by
`hWrite`.  `buf = none` is the null pointer; `buf = some bs` points to a live
block whose bytes are `bs`. -/
structure File where
  handle : HANDLE
  L : Nat
  callback : Int
  buf : Option (List Nat)
  bufsz : Int
  hWrite : HANDLE
deriving DecidableEq, Repr

/-- One observable action of the code, in the order the code performs them.
`bufStore cap i` is the statement `lcb_buf(this)[i] = 0`, where `cap` is the
size of the block `buf` points to (`none` when `buf` is `NULL`);
`errbuffStore i` is `errbuff[i] = 0`; `ReadFile h cap n` is a read of `n` bytes
from `h` into the block of size `cap`. -/
inductive Event where
  | CreateFile (name : String)
  | SetNamedPipeHandleState (h : HANDLE) (mode : Nat)
  | malloc (size : Int)
  | free
  | CloseHandle (h : HANDLE)
  | luaL_unref (L : Nat) (ref : Int)
  | ReadFile (h : HANDLE) (cap : Option Nat) (nBytes : Nat)
  | WriteFile (h : HANDLE) (data : List Nat) (nBytes : Nat)
  | bufStore (cap : Option Nat) (idx : Nat)
  | errbuffStore (idx : Int)
deriving DecidableEq, Repr

/-- A value on the Lua stack. -/
inductive LuaValue where
  | nil
  | string (s : List Nat)
  | integer (n : Int)
  | userdata (f : File)
deriving DecidableEq, Repr

/-- What a Lua C function of a `File` leaves behind: the struct, the trace of
actions, the values it pushed and the `int` it returned (the number of
results). -/
structure Ret where
  file : File
  trace : List Event
  pushed : List LuaValue
  nres : Nat
deriving DecidableEq, Repr

/-- The results Lua takes from a C function: the top `nres` pushed values. -/
def Ret.results (r : Ret) : List LuaValue :=
  r.pushed.drop (r.pushed.length - r.nres)

/-! ## Memory and strings -/

/-- Bytes `src` written from the start of the block `dst`; the block keeps its
size. -/
def overwrite : List Nat → List Nat → List Nat
  | [], _ => []
  | b :: bs, [] => b :: bs
  | _ :: bs, d :: ds => d :: overwrite bs ds

/-- The C string that starts at the beginning of a block: the bytes before the
first zero byte. -/
def cstr (bs : List Nat) : List Nat :=
  bs.takeWhile (fun b => b != 0)

/-- The function `lua_pushstring`: a null pointer pushes `nil`, any other
pointer pushes a copy of the zero-terminated string it points to. -/
def lua_pushstring (s : Option (List Nat)) : LuaValue :=
  match s with
  | none => LuaValue.nil
  | some bs => LuaValue.string (cstr bs)

/-- A cast of an `int` to `DWORD`. -/
def toDWORD (n : Int) : Nat :=
  (n % 2 ^ 32).toNat

/-! ## Error reporter (`winpipe.c:54-82`) -/

/-- The answers of the operating system that the error reporter reads:
`GetLastError()` and, for each code, the text `FormatMessage` produces (empty
when the lookup fails and `FormatMessage` returns 0). -/
structure OS where
  lastError : Int
  message : Int → List Nat

/-- The result of `last_error`: the static buffer afterwards and the index at
which the terminating zero was stored.  The returned pointer is the buffer. -/
structure ErrText where
  errbuff : List Nat
  idx : Int
deriving DecidableEq, Repr

/-- The effect of `FormatMessage` on the output buffer: the message followed by
its terminating zero, as far as the buffer reaches. -/
def FormatMessage (m errbuff : List Nat) : List Nat :=
  overwrite errbuff (m ++ [0])

/-- The function `last_error` (`winpipe.c:60-74`).  `errbuff` is the static buffer
as the previous call left it.  A negative `sz - 2` lands before the buffer and
an index of 256 or more behind it; the buffer itself is then unchanged. -/
def last_error (os : OS) (errbuff : List Nat) (err : Int) : ErrText :=
  let err := if err = 0 then os.lastError else err
  let m := os.message err
  let sz : Int := m.length
  let b := FormatMessage m errbuff
  let idx := sz - 2
  { errbuff := if 0 ≤ idx then b.set idx.toNat 0 else b, idx := idx }

/-- The string `last_error` returns, read as the C string at the returned
pointer. -/
def ErrText.text (e : ErrText) : List Nat :=
  cstr e.errbuff

/-- The function `push_error_msg` (`winpipe.c:54-58`): the pushed values and the
returned count. -/
def push_error_msg (msg : Option (List Nat)) : List LuaValue × Nat :=
  ([LuaValue.nil, lua_pushstring msg], 2)

/-- The function `push_error` (`winpipe.c:80-82`), with the store `last_error`
made. -/
def push_error (os : OS) (errbuff : List Nat) : List Event × List LuaValue × Nat :=
  let e := last_error os errbuff 0
  ([Event.errbuffStore e.idx], push_error_msg (some e.errbuff))

/-! ## Buffer and teardown (`winpipe.c:129-147`) -/

/-- The block `malloc(size)` returns; `junk` is its indeterminate content.
Allocation is taken to succeed: the source never tests the pointer. -/
def malloc (junk : Nat → Nat) (size : Int) : Option (List Nat) :=
  some ((List.range size.toNat).map junk)

/-- The function `lcb_allocate_buffer` (`winpipe.c:129-133`). -/
def lcb_allocate_buffer (junk : Nat → Nat) (data : File) (size : Int) :
    File × List Event :=
  ({ data with buf := malloc junk size, bufsz := size }, [Event.malloc size])

/-- The function `lcb_free` (`winpipe.c:135-147`); `none` is a null `data`. -/
def lcb_free (data : Option File) : Option File × List Event :=
  match data with
  | none => (none, [])
  | some lcb =>
    let (lcb, t1) :=
      if lcb.buf.isSome then ({ lcb with buf := none }, [Event.free])
      else (lcb, [])
    let (lcb, t2) :=
      if lcb.handle ≠ NULL then
        ({ lcb with handle := NULL }, [Event.CloseHandle lcb.handle])
      else (lcb, [])
    (some lcb, t1 ++ t2 ++ [Event.luaL_unref lcb.L lcb.callback])

/-! ## The File object (`winpipe.c:174-290`) -/

/-- The function `File_ctor` (`winpipe.c:183-188`). -/
def File_ctor (junk : Nat → Nat) (L : Nat) (this : File) (hread hwrite : HANDLE) :
    File × List Event :=
  let this := { this with handle := hread }
  let this := { this with hWrite := hwrite }
  let this := { this with L := L }
  lcb_allocate_buffer junk this FILE_BUFF_SIZE

/-- The function `push_new_File` (`winpipe.c:174-180`).  `udata` is the
indeterminate content of the block `lua_newuserdata` returns. -/
def push_new_File (junk : Nat → Nat) (L : Nat) (udata : File) (hread hwrite : HANDLE) :
    List Event × List LuaValue × Nat :=
  let (this, t) := File_ctor junk L udata hread hwrite
  (t, [LuaValue.userdata this], 1)

/-- The function `l_File_write` (`winpipe.c:194-202`).  `bytesWrote` is what
`WriteFile` stores through its out-parameter. -/
def l_File_write (bytesWrote : Nat) (this : File) (s : List Nat) : Ret :=
  { file := this
    trace := [Event.WriteFile this.hWrite s (s.length % 2 ^ 32)]
    pushed := [LuaValue.integer bytesWrote]
    nres := 1 }

/-- What `ReadFile` answers: its `BOOL` result and the bytes it delivered
(`bytesRead` is their number). -/
structure ReadOutcome where
  ok : Bool
  data : List Nat
deriving DecidableEq, Repr

/-- The function `raw_read` (`winpipe.c:204-209`): the `BOOL` it returns, the
struct afterwards and the trace.  The store of the terminating zero is recorded
with its index; a store through a null pointer or at an index outside the block
leaves the block as it is and shows in the trace only. -/
def raw_read (rd : ReadOutcome) (this : File) : Bool × File × List Event :=
  let bytesRead : Nat := rd.data.length
  let cap := this.buf.map List.length
  let t1 := [Event.ReadFile this.handle cap (toDWORD this.bufsz)]
  let this := { this with buf := this.buf.map (fun bs => overwrite bs rd.data) }
  let t2 := [Event.bufStore cap bytesRead]
  let this := { this with buf := this.buf.map (fun bs => bs.set bytesRead 0) }
  (rd.ok && decide (bytesRead ≠ 0), this, t1 ++ t2)

/-- The function `l_File_read` (`winpipe.c:216-225`). -/
def l_File_read (os : OS) (errbuff : List Nat) (rd : ReadOutcome) (this : File) : Ret :=
  match raw_read rd this with
  | (true, this, t) =>
    { file := this, trace := t, pushed := [lua_pushstring this.buf], nres := 1 }
  | (false, this, t) =>
    let (te, pushed, n) := push_error os errbuff
    { file := this, trace := t ++ te, pushed := pushed, nres := n }

/-- The function `l_File_close` (`winpipe.c:264-274`). -/
def l_File_close (this : File) : Ret :=
  let (this, t1) :=
    if this.hWrite ≠ NULL ∧ this.hWrite ≠ this.handle then
      ({ this with hWrite := NULL }, [Event.CloseHandle this.hWrite])
    else (this, [])
  match lcb_free (some this) with
  | (some this, t2) => { file := this, trace := t1 ++ t2, pushed := [], nres := 0 }
  | (none, t2) => { file := this, trace := t1 ++ t2, pushed := [], nres := 0 }

/-- The function `l_File___gc` (`winpipe.c:278-290`). -/
def l_File___gc (this : File) : Ret :=
  if this.buf.isSome then
    { file := { this with buf := none }, trace := [Event.free], pushed := [], nres := 0 }
  else
    { file := this, trace := [], pushed := [], nres := 0 }

/-! ## Opening a pipe (`winpipe.c:363-392`) -/

/-- What the environment answers during `l_open_pipe`: the handle `CreateFile`
returns, the result of `SetNamedPipeHandleState`, and the indeterminate
contents of the two fresh blocks. -/
structure OpenOutcome where
  hPipe : HANDLE
  modeOk : Bool
  udata : File
  junk : Nat → Nat

/-- The function `l_open_pipe` (`winpipe.c:363-392`); `name = none` is a call
without argument. -/
def l_open_pipe (os : OS) (errbuff : List Nat) (oo : OpenOutcome) (L : Nat)
    (name : Option String) : List Event × List LuaValue × Nat :=
  let pipename := name.getD "\\\\.\\pipe\\luawinapi"
  let hPipe := oo.hPipe
  let t1 := [Event.CreateFile pipename]
  if hPipe = INVALID_HANDLE_VALUE then
    let (te, pushed, n) := push_error os errbuff
    (t1 ++ te, pushed, n)
  else
    let mode := PIPE_READMODE_MESSAGE ||| PIPE_NOWAIT
    let t2 := [Event.SetNamedPipeHandleState hPipe mode]
    let (t3, pushed, n) := push_new_File oo.junk L oo.udata hPipe hPipe
    (t1 ++ t2 ++ t3, pushed, n)

/-! ## Observations on traces -/

/-- The handles passed to `CloseHandle`, in order. -/
def closedHandles (t : List Event) : List HANDLE :=
  t.filterMap (fun e => match e with
    | Event.CloseHandle h => some h
    | _ => none)

/-- The number of calls of `free`. -/
def freeCount (t : List Event) : Nat :=
  t.count Event.free

/-- The store is inside its buffer: the pointer is not null and the index is
below the size of the block. -/
def Event.inBounds : Event → Bool
  | Event.bufStore (some cap) idx => decide (idx < cap)
  | Event.bufStore none _ => false
  | Event.errbuffStore idx => decide (0 ≤ idx ∧ idx < (ERRBUFF_SIZE : Int))
  | _ => true

/-- A teardown entry point the host can call. -/
inductive Teardown where
  | close
  | gc
deriving DecidableEq, Repr

/-- One teardown call. -/
def Teardown.run (op : Teardown) (this : File) : Ret :=
  match op with
  | Teardown.close => l_File_close this
  | Teardown.gc => l_File___gc this

/-- A sequence of teardown calls on one `File`: the final struct and the whole
trace. -/
def runTeardowns : List Teardown → File → File × List Event
  | [], this => (this, [])
  | op :: ops, this =>
    let r := op.run this
    let (f, t) := runTeardowns ops r.file
    (f, r.trace ++ t)

/-- The struct `File_ctor` fills for an opened pipe whose handle is `h`, as
`l_open_pipe` calls it (read and write handle both `h`), the fresh blocks
holding zeros. -/
def openedFile (h : HANDLE) : File :=
  (File_ctor (fun _ => 0) 0
    { handle := 0, L := 0, callback := 0, buf := none, bufsz := 0, hWrite := 0 } h h).1

/-- An operating system whose last error is 232 (`ERROR_NO_DATA`) and whose
message for every code is the four bytes `N`, `o`, CR, LF. -/
def sampleOS : OS :=
  { lastError := 232, message := fun _ => [78, 111, 13, 10] }

/-- The static buffer `errbuff` before its first use: 256 zero bytes. -/
def zeroErrbuff : List Nat :=
  List.replicate ERRBUFF_SIZE 0

/-! ## Closed forms of the teardown functions -/

/-- The struct `l_File_close` leaves: buffer and read handle released; the write
handle is nulled only when it was non-null and differed from the read handle. -/
theorem l_File_close_file (f : File) :
    (l_File_close f).file =
      { f with
        handle := NULL
        buf := none
        hWrite := if f.hWrite ≠ NULL ∧ f.hWrite ≠ f.handle then NULL else f.hWrite } := by
  cases f with
  | mk handle L callback buf bufsz hWrite =>
    cases buf <;> by_cases h0 : hWrite = 0 <;> by_cases h1 : hWrite = handle <;>
      by_cases h2 : handle = 0 <;>
      simp_all [l_File_close, lcb_free, NULL]

/-- The trace of `l_File_close`, action by action. -/
theorem l_File_close_trace (f : File) :
    (l_File_close f).trace =
      (if f.hWrite ≠ NULL ∧ f.hWrite ≠ f.handle then [Event.CloseHandle f.hWrite] else [])
        ++ (if f.buf.isSome then [Event.free] else [])
        ++ (if f.handle ≠ NULL then [Event.CloseHandle f.handle] else [])
        ++ [Event.luaL_unref f.L f.callback] := by
  cases f with
  | mk handle L callback buf bufsz hWrite =>
    cases buf <;> by_cases h0 : hWrite = 0 <;> by_cases h1 : hWrite = handle <;>
      by_cases h2 : handle = 0 <;>
      simp_all [l_File_close, lcb_free, NULL]

/-- The struct `l_File___gc` leaves: only the buffer pointer changes. -/
theorem l_File___gc_file (f : File) :
    (l_File___gc f).file = { f with buf := none } := by
  cases f with
  | mk handle L callback buf bufsz hWrite =>
    cases buf <;> simp [l_File___gc]

/-- The trace of `l_File___gc`. -/
theorem l_File___gc_trace (f : File) :
    (l_File___gc f).trace = if f.buf.isSome then [Event.free] else [] := by
  cases f with
  | mk handle L callback buf bufsz hWrite =>
    cases buf <;> simp [l_File___gc]

/-- The struct a teardown call leaves has a null buffer pointer. -/
theorem Teardown.run_buf (op : Teardown) (f : File) : (op.run f).file.buf = none := by
  cases op
  · simp [Teardown.run, l_File_close_file]
  · simp [Teardown.run, l_File___gc_file]

/-- The number of `free` calls in one teardown call: one when the buffer pointer
is non-null, none otherwise. -/
theorem Teardown.run_freeCount (op : Teardown) (f : File) :
    freeCount (op.run f).trace = if f.buf.isSome then 1 else 0 := by
  cases op
  · simp only [Teardown.run, l_File_close_trace, freeCount, List.count_append]
    by_cases hb : f.buf.isSome = true <;> split_ifs <;>
      simp_all [List.count_cons, List.count_nil]
  · simp only [Teardown.run, l_File___gc_trace, freeCount]
    by_cases hb : f.buf.isSome = true <;> simp [hb]

/-- Unfolding of `runTeardowns` at a non-empty sequence. -/
theorem runTeardowns_cons (op : Teardown) (ops : List Teardown) (f : File) :
    runTeardowns (op :: ops) f =
      ((runTeardowns ops (op.run f).file).1,
        (op.run f).trace ++ (runTeardowns ops (op.run f).file).2) := by
  simp [runTeardowns]

/-- With a null buffer pointer no teardown sequence calls `free`, and the
pointer stays null. -/
theorem runTeardowns_of_buf_none (ops : List Teardown) (f : File) (hb : f.buf = none) :
    freeCount (runTeardowns ops f).2 = 0 ∧ (runTeardowns ops f).1.buf = none := by
  induction ops generalizing f with
  | nil => simp [runTeardowns, freeCount, hb]
  | cons op ops ih =>
    have h := ih (op.run f).file (Teardown.run_buf op f)
    have h1 := Teardown.run_freeCount op f
    rw [runTeardowns_cons]
    simp only [freeCount, List.count_append] at h h1 ⊢
    simp [h.1, h.2, h1, hb]

/-- The fields of `openedFile h`. -/
theorem openedFile_eq (h : HANDLE) :
    openedFile h =
      { handle := h, L := 0, callback := 0
        buf := malloc (fun _ => 0) FILE_BUFF_SIZE, bufsz := FILE_BUFF_SIZE, hWrite := h } := by
  rfl

/-- The pointer `malloc` returns is not null. -/
theorem malloc_isSome (junk : Nat → Nat) (size : Int) : (malloc junk size).isSome = true := by
  rfl

/-! ## Close and finalizer -/

/-- C1 (fails on the code): on the File that open produces for handle 5, the
first `l_File_close` calls `CloseHandle(5)` and leaves `hWrite = 5`; the second
`l_File_close` calls `CloseHandle(5)` again, so the handle is released twice
over the two calls, and it changes the struct (`hWrite` becomes null). -/
theorem l_File_close_twice_closes_handle_again :
    closedHandles (l_File_close (openedFile 5)).trace = [5] ∧
    (l_File_close (openedFile 5)).file.hWrite = 5 ∧
    closedHandles (l_File_close (l_File_close (openedFile 5)).file).trace = [5] ∧
    (closedHandles ((l_File_close (openedFile 5)).trace ++
        (l_File_close (l_File_close (openedFile 5)).file).trace)).count 5 = 2 ∧
    (l_File_close (l_File_close (openedFile 5)).file).file.hWrite = NULL ∧
    (l_File_close (l_File_close (openedFile 5)).file).file ≠
      (l_File_close (openedFile 5)).file := by
  simp [l_File_close_file, l_File_close_trace, openedFile_eq, closedHandles, NULL, malloc_isSome]

/-- C2: for a File whose read handle `r` is non-null, one `l_File_close` passes
to `CloseHandle` exactly `[r]` when the write handle equals `r`, exactly
`[w, r]` when the write handle `w` is non-null and differs from `r`, and exactly
`[r]` when the write handle is null; in each case no handle is passed twice. -/
theorem l_File_close_closes_each_handle_once (f : File) (hr : f.handle ≠ NULL) :
    (f.hWrite = f.handle → closedHandles (l_File_close f).trace = [f.handle]) ∧
    (f.hWrite ≠ NULL → f.hWrite ≠ f.handle →
      closedHandles (l_File_close f).trace = [f.hWrite, f.handle]) ∧
    (f.hWrite = NULL → closedHandles (l_File_close f).trace = [f.handle]) ∧
    (closedHandles (l_File_close f).trace).Nodup := by
  rw [l_File_close_trace]
  by_cases hb : f.buf.isSome = true <;> by_cases h0 : f.hWrite = NULL <;>
    by_cases h1 : f.hWrite = f.handle <;>
    simp_all [closedHandles]

/-- C2 at three Files: aliased, distinct and unset write handle. -/
theorem l_File_close_closes_each_handle_once_witness :
    (openedFile 5).handle ≠ NULL ∧
    closedHandles (l_File_close (openedFile 5)).trace = [5] ∧
    closedHandles (l_File_close { openedFile 5 with hWrite := 7 }).trace = [7, 5] ∧
    closedHandles (l_File_close { openedFile 5 with hWrite := NULL }).trace = [5] := by
  have ha := l_File_close_closes_each_handle_once (openedFile 5)
    (by simp [openedFile_eq, NULL])
  have hd := l_File_close_closes_each_handle_once { openedFile 5 with hWrite := 7 }
    (by simp [openedFile_eq, NULL])
  have hn := l_File_close_closes_each_handle_once { openedFile 5 with hWrite := NULL }
    (by simp [openedFile_eq, NULL])
  refine ⟨by simp [openedFile_eq, NULL], ?_, ?_, ?_⟩
  · simpa [openedFile_eq] using ha.1 rfl
  · simpa [openedFile_eq] using hd.2.1 (by simp [NULL]) (by simp [openedFile_eq])
  · simpa [openedFile_eq] using hn.2.2.1 rfl

/-- C8: for a File whose buffer is allocated and any sequence of `l_File_close`
and `l_File___gc` calls, `free` is called at most once in the whole trace,
exactly once when the sequence is non-empty, the buffer pointer is null after
the first call, and it is null after the whole non-empty sequence. -/
theorem teardowns_free_buffer_once (f : File) (hb : f.buf.isSome = true)
    (ops : List Teardown) :
    freeCount (runTeardowns ops f).2 ≤ 1 ∧
    (ops ≠ [] → freeCount (runTeardowns ops f).2 = 1) ∧
    (∀ op rest, ops = op :: rest → (op.run f).file.buf = none) ∧
    (ops ≠ [] → (runTeardowns ops f).1.buf = none) := by
  cases ops with
  | nil => simp [runTeardowns, freeCount]
  | cons op ops =>
    have h := runTeardowns_of_buf_none ops (op.run f).file (Teardown.run_buf op f)
    have h1 := Teardown.run_freeCount op f
    rw [runTeardowns_cons]
    simp only [freeCount, List.count_append] at h h1 ⊢
    refine ⟨by simp [h.1, h1, hb], fun _ => by simp [h.1, h1, hb], ?_, fun _ => h.2⟩
    intro op1 rest heq
    exact Teardown.run_buf op1 f

/-- C8 on the opened File for handle 5 with the calls close, finalizer, close. -/
theorem teardowns_free_buffer_once_witness :
    (openedFile 5).buf.isSome = true ∧
    freeCount (runTeardowns [Teardown.close, Teardown.gc, Teardown.close] (openedFile 5)).2
      = 1 ∧
    (runTeardowns [Teardown.close, Teardown.gc, Teardown.close] (openedFile 5)).1.buf
      = none :=
  ⟨by simp [openedFile_eq, malloc_isSome],
    (teardowns_free_buffer_once (openedFile 5) (by simp [openedFile_eq, malloc_isSome])
      [Teardown.close, Teardown.gc, Teardown.close]).2.1 (by simp),
    (teardowns_free_buffer_once (openedFile 5) (by simp [openedFile_eq, malloc_isSome])
      [Teardown.close, Teardown.gc, Teardown.close]).2.2.2 (by simp)⟩

/-- The state both teardown paths would have to reach: buffer and both handles
released. -/
theorem runTeardowns_released (ops : List Teardown) (f : File)
    (hb : f.buf = none) (hh : f.handle = NULL) (hw : f.hWrite = NULL) :
    (runTeardowns ops f).1 = f ∧ closedHandles (runTeardowns ops f).2 = [] := by
  induction ops with
  | nil => simp [runTeardowns, closedHandles]
  | cons op ops ih =>
    have hrun : (op.run f).file = f ∧ closedHandles (op.run f).trace = [] := by
      cases f with
      | mk handle L callback buf bufsz hWrite =>
        simp only at hb hh hw
        subst hb hh hw
        cases op <;>
          simp [Teardown.run, l_File_close_file, l_File_close_trace, l_File___gc_file,
            l_File___gc_trace, closedHandles, NULL]
    rw [runTeardowns_cons, hrun.1]
    simp only [closedHandles, List.filterMap_append] at ih hrun ⊢
    simp [ih.1, ih.2, hrun.2]

/-- A sequence of finalizer calls only: nothing but the buffer pointer changes
and no handle is closed. -/
theorem runTeardowns_gc_only (ops : List Teardown) (f : File) (hne : ops ≠ [])
    (hc : Teardown.close ∉ ops) :
    (runTeardowns ops f).1 = { f with buf := none } ∧
    closedHandles (runTeardowns ops f).2 = [] := by
  induction ops generalizing f with
  | nil => exact absurd rfl hne
  | cons op ops ih =>
    have hop : op = Teardown.gc := by
      cases op
      · simp at hc
      · rfl
    subst hop
    have hc2 : Teardown.close ∉ ops := fun h => hc (List.mem_cons_of_mem _ h)
    have htr : closedHandles (l_File___gc f).trace = [] := by
      rw [l_File___gc_trace]; split_ifs <;> simp [closedHandles]
    rw [runTeardowns_cons]
    simp only [Teardown.run, l_File___gc_file, closedHandles, List.filterMap_append]
      at htr ⊢
    cases ops with
    | nil => simp [runTeardowns, htr]
    | cons op2 ops2 =>
      have h := ih { f with buf := none } (by simp) hc2
      simp only [closedHandles] at h
      simp [h.1, h.2, htr]

/-- A sequence that contains `l_File_close`: the buffer pointer and the read
handle end up null. -/
theorem runTeardowns_with_close (ops : List Teardown) (f : File)
    (hc : Teardown.close ∈ ops) :
    (runTeardowns ops f).1.buf = none ∧ (runTeardowns ops f).1.handle = NULL := by
  have key : ∀ (l : List Teardown) (g : File), g.buf = none → g.handle = NULL →
      (runTeardowns l g).1.buf = none ∧ (runTeardowns l g).1.handle = NULL := by
    intro l
    induction l with
    | nil => intro g hb hh; simp [runTeardowns, hb, hh]
    | cons op l ih =>
      intro g hb hh
      rw [runTeardowns_cons]
      apply ih
      · exact Teardown.run_buf op g
      · cases op <;> simp [Teardown.run, l_File_close_file, l_File___gc_file, hh]
  induction ops generalizing f with
  | nil => simp at hc
  | cons op ops ih =>
    rw [runTeardowns_cons]
    cases op with
    | close =>
      apply key
      · exact Teardown.run_buf _ f
      · simp [Teardown.run, l_File_close_file]
    | gc =>
      have hc2 : Teardown.close ∈ ops := by simpa using hc
      exact ih _ hc2

/-- A sequence that contains `l_File_close`, on a File whose write handle is not
the read handle: the struct ends with buffer and both handles null. -/
theorem runTeardowns_with_close_distinct (ops : List Teardown) (f : File)
    (hc : Teardown.close ∈ ops) (hd : f.hWrite ≠ f.handle) :
    (runTeardowns ops f).1 = { f with handle := NULL, buf := none, hWrite := NULL } := by
  induction ops generalizing f with
  | nil => simp at hc
  | cons op ops ih =>
    rw [runTeardowns_cons]
    cases op with
    | close =>
      have hfile : (Teardown.close.run f).file =
          { f with handle := NULL, buf := none, hWrite := NULL } := by
        simp only [Teardown.run, l_File_close_file]
        by_cases h0 : f.hWrite = NULL <;> simp [h0, hd]
      rw [hfile]
      exact (runTeardowns_released ops _ rfl rfl rfl).1
    | gc =>
      have hc2 : Teardown.close ∈ ops := by simpa using hc
      have h := ih (Teardown.gc.run f).file hc2
        (by simpa [Teardown.run, l_File___gc_file] using hd)
      simpa [Teardown.run, l_File___gc_file] using h

/-- C9 (fails on the code): on the File that open produces for handle 5 the
finalizer alone leaves both handles at 5 and calls no `CloseHandle`, while
close alone nulls the read handle; the two structs differ. -/
theorem l_File___gc_keeps_handles_open :
    (l_File___gc (openedFile 5)).file.handle = 5 ∧
    (l_File___gc (openedFile 5)).file.hWrite = 5 ∧
    closedHandles (l_File___gc (openedFile 5)).trace = [] ∧
    (l_File_close (openedFile 5)).file.handle = NULL ∧
    (l_File___gc (openedFile 5)).file ≠ (l_File_close (openedFile 5)).file := by
  simp [l_File_close_file, l_File___gc_file, l_File___gc_trace, openedFile_eq,
    closedHandles, NULL, malloc_isSome]

/-- C9 as amended: after any non-empty sequence of `l_File_close` and
`l_File___gc` calls the buffer pointer is null.  A sequence without
`l_File_close` changes nothing else and closes no handle.  A sequence with
`l_File_close` ends with the read handle null, and when the write handle was
not the read handle every such sequence ends in the same struct, with buffer,
read handle and write handle null. -/
theorem teardowns_released_state (f : File) (ops : List Teardown) (hne : ops ≠ []) :
    (runTeardowns ops f).1.buf = none ∧
    (Teardown.close ∉ ops →
      (runTeardowns ops f).1 = { f with buf := none } ∧
      closedHandles (runTeardowns ops f).2 = []) ∧
    (Teardown.close ∈ ops → (runTeardowns ops f).1.handle = NULL) ∧
    (Teardown.close ∈ ops → f.hWrite ≠ f.handle →
      (runTeardowns ops f).1 = { f with handle := NULL, buf := none, hWrite := NULL }) := by
  refine ⟨?_, fun hc => runTeardowns_gc_only ops f hne hc,
    fun hc => (runTeardowns_with_close ops f hc).2,
    fun hc hd => runTeardowns_with_close_distinct ops f hc hd⟩
  by_cases hc : Teardown.close ∈ ops
  · exact (runTeardowns_with_close ops f hc).1
  · rw [(runTeardowns_gc_only ops f hne hc).1]

/-- C9 as amended, on a File with read handle 5 and write handle 7 and the calls
finalizer, close, finalizer. -/
theorem teardowns_released_state_witness :
    [Teardown.gc, Teardown.close, Teardown.gc] ≠ [] ∧
    (runTeardowns [Teardown.gc, Teardown.close, Teardown.gc]
        { openedFile 5 with hWrite := 7 }).1 =
      { openedFile 5 with handle := NULL, buf := none, hWrite := NULL } :=
  ⟨by simp,
    (teardowns_released_state { openedFile 5 with hWrite := 7 }
      [Teardown.gc, Teardown.close, Teardown.gc] (by simp)).2.2.2 (by simp)
      (by simp [openedFile_eq])⟩

/-! ## Bytes in a block -/

/-- Writing into a block does not change its size. -/
theorem overwrite_length (bs src : List Nat) : (overwrite bs src).length = bs.length := by
  induction bs generalizing src with
  | nil => simp [overwrite]
  | cons b bs ih => cases src <;> simp [overwrite, ih]

/-- The first `k` bytes of a block after `src` was written into it are the first
`k` bytes of `src`, as long as both are that long. -/
theorem overwrite_take (bs src : List Nat) (k : Nat) (hs : k ≤ src.length)
    (hb : k ≤ bs.length) : (overwrite bs src).take k = src.take k := by
  induction bs generalizing src k with
  | nil =>
    have hk : k = 0 := by simpa using hb
    simp [hk]
  | cons b bs ih =>
    cases k with
    | zero => simp
    | succ k =>
      cases src with
      | nil => simp at hs
      | cons d ds =>
        simp only [overwrite, List.take_succ_cons, List.cons.injEq, true_and]
        exact ih ds k (by simpa using hs) (by simpa using hb)

/-- The C string in front of a zero byte stops at the first zero byte of the
bytes before it. -/
theorem cstr_append_zero (a r : List Nat) :
    cstr (a ++ 0 :: r) = a.takeWhile (fun b => b != 0) := by
  induction a with
  | nil => simp [cstr]
  | cons x a ih =>
    simp only [cstr] at ih
    by_cases hx : x = 0
    · simp [cstr, hx]
    · simp [cstr, List.takeWhile_cons, hx, ih]

/-- A string without zero byte is its own C string content. -/
theorem takeWhile_ne_zero (a : List Nat) (h : ∀ b ∈ a, b ≠ 0) :
    a.takeWhile (fun b => b != 0) = a := by
  induction a with
  | nil => simp
  | cons x a ih =>
    have hx : x ≠ 0 := h x (by simp)
    have ha : ∀ b ∈ a, b ≠ 0 := fun b hb => h b (by simp [hb])
    simp [List.takeWhile_cons, hx, ih ha]

/-- After `src` is written into the block and a zero is stored at index `i`, the C
string in the block is the first `i` bytes of `src` up to their first zero
byte, whatever the block held before. -/
theorem cstr_set_overwrite (bs src : List Nat) (i : Nat) (hi : i < bs.length)
    (hs : i ≤ src.length) :
    cstr ((overwrite bs src).set i 0) = (src.take i).takeWhile (fun b => b != 0) := by
  have hlen : i < (overwrite bs src).length := by rw [overwrite_length]; exact hi
  rw [List.set_eq_take_append_cons_drop, if_pos hlen, cstr_append_zero,
    overwrite_take bs src i hs (Nat.le_of_lt hi)]

/-! ## Read and write -/

/-- The size of the block `malloc` returns. -/
theorem malloc_length (junk : Nat → Nat) (size : Int) :
    (malloc junk size).map List.length = some size.toNat := by
  simp [malloc]

/-- The three components of `raw_read`. -/
theorem raw_read_eq (rd : ReadOutcome) (f : File) :
    raw_read rd f =
      (rd.ok && decide (rd.data.length ≠ 0),
        { f with
          buf := ((f.buf.map (fun bs => overwrite bs rd.data)).map
            (fun bs => bs.set rd.data.length 0)) },
        [Event.ReadFile f.handle (f.buf.map List.length) (toDWORD f.bufsz),
          Event.bufStore (f.buf.map List.length) rd.data.length]) := by
  rfl

/-- On every File that open produces, `raw_read` asks `ReadFile` for the whole
2048 bytes of the block and then stores the zero at the index equal to the
number of bytes delivered. -/
theorem raw_read_opened_trace (rd : ReadOutcome) (h : HANDLE) :
    (raw_read rd (openedFile h)).2.2 =
      [Event.ReadFile h (some 2048) 2048, Event.bufStore (some 2048) rd.data.length] := by
  rw [raw_read_eq, openedFile_eq]
  simp only [malloc_length]
  rfl

/-- C3 (fails on the code): on the File that open produces for handle 5,
`raw_read` asks `ReadFile` for 2048 bytes, the full size of the block and not
2047; when the OS delivers 2048 bytes the terminating zero is stored at index
2048, which is outside the block. -/
theorem raw_read_terminator_past_buffer :
    (raw_read { ok := true, data := List.replicate 2048 65 } (openedFile 5)).2.2 =
      [Event.ReadFile 5 (some 2048) 2048, Event.bufStore (some 2048) 2048] ∧
    (Event.bufStore (some 2048) 2048).inBounds = false := by
  refine ⟨?_, by simp [Event.inBounds]⟩
  rw [raw_read_opened_trace]
  simp only [List.length_replicate]

/-- The result of `l_File_read` when `raw_read` reports success. -/
theorem l_File_read_of_success (os : OS) (errbuff : List Nat) (rd : ReadOutcome) (f : File)
    (hok : rd.ok = true) (hpos : rd.data.length ≠ 0) :
    (l_File_read os errbuff rd f).pushed = [lua_pushstring (raw_read rd f).2.1.buf] ∧
    (l_File_read os errbuff rd f).nres = 1 := by
  simp [l_File_read, raw_read_eq, hok, hpos]

/-- The result of `l_File_read` when `raw_read` reports failure. -/
theorem l_File_read_of_failure (os : OS) (errbuff : List Nat) (rd : ReadOutcome) (f : File)
    (h : ¬(rd.ok = true ∧ rd.data.length ≠ 0)) :
    (l_File_read os errbuff rd f).pushed =
      [LuaValue.nil, LuaValue.string (last_error os errbuff 0).text] ∧
    (l_File_read os errbuff rd f).nres = 2 := by
  have hb : (rd.ok && decide (rd.data.length ≠ 0)) = false := by
    cases hok : rd.ok
    · simp
    · by_cases hz : rd.data.length = 0
      · simp [hz]
      · exact absurd ⟨hok, hz⟩ h
  simp only [l_File_read, raw_read_eq, hb]
  simp [push_error, push_error_msg, lua_pushstring, ErrText.text]

/-- C4: on an open File (buffer allocated), whatever `ReadFile` answers,
`l_File_read` returns one value, a string, exactly when `ReadFile` reported
success and delivered at least one byte; in every other case it returns two
values, `nil` and a message string. -/
theorem l_File_read_success_iff (os : OS) (errbuff : List Nat) (rd : ReadOutcome)
    (f : File) (hb : f.buf.isSome = true) :
    ((rd.ok = true ∧ 0 < rd.data.length) ↔
      ((l_File_read os errbuff rd f).nres = 1 ∧
        ∃ s, (l_File_read os errbuff rd f).results = [LuaValue.string s])) ∧
    (¬(rd.ok = true ∧ 0 < rd.data.length) ↔
      ((l_File_read os errbuff rd f).nres = 2 ∧
        ∃ msg, (l_File_read os errbuff rd f).results =
          [LuaValue.nil, LuaValue.string msg])) := by
  by_cases h : rd.ok = true ∧ rd.data.length ≠ 0
  · obtain ⟨hp, hn⟩ := l_File_read_of_success os errbuff rd f h.1 h.2
    have hpos : 0 < rd.data.length := Nat.pos_of_ne_zero h.2
    obtain ⟨bs, hbs⟩ := Option.isSome_iff_exists.mp hb
    have hres : (l_File_read os errbuff rd f).results =
        [LuaValue.string (cstr ((overwrite bs rd.data).set rd.data.length 0))] := by
      simp [Ret.results, hp, hn, raw_read_eq, hbs, lua_pushstring]
    simp [hres, hn, h.1, hpos]
  · obtain ⟨hp, hn⟩ := l_File_read_of_failure os errbuff rd f h
    have hres : (l_File_read os errbuff rd f).results =
        [LuaValue.nil, LuaValue.string (last_error os errbuff 0).text] := by
      simp [Ret.results, hp, hn]
    have h2 : ¬(rd.ok = true ∧ 0 < rd.data.length) := fun hh =>
      h ⟨hh.1, Nat.pos_iff_ne_zero.mp hh.2⟩
    simp [hres, hn, h2]

/-- C4 on the opened File for handle 5: two bytes delivered with success give one
result, no byte delivered with success gives two. -/
theorem l_File_read_success_iff_witness :
    (openedFile 5).buf.isSome = true ∧
    (l_File_read sampleOS zeroErrbuff { ok := true, data := [104, 105] }
      (openedFile 5)).nres = 1 ∧
    (l_File_read sampleOS zeroErrbuff { ok := true, data := [] } (openedFile 5)).nres = 2 :=
  ⟨by simp [openedFile_eq, malloc_isSome],
    ((l_File_read_success_iff sampleOS zeroErrbuff { ok := true, data := [104, 105] }
      (openedFile 5) (by simp [openedFile_eq, malloc_isSome])).1.mp
        ⟨rfl, by simp⟩).1,
    ((l_File_read_success_iff sampleOS zeroErrbuff { ok := true, data := [] }
      (openedFile 5) (by simp [openedFile_eq, malloc_isSome])).2.mp
        (by simp)).1⟩

/-- The string a successful `l_File_read` returns: the delivered bytes up to
their first zero byte. -/
theorem l_File_read_results_of_success (os : OS) (errbuff : List Nat) (rd : ReadOutcome)
    (f : File) (bs : List Nat) (hbuf : f.buf = some bs) (hok : rd.ok = true)
    (hpos : 0 < rd.data.length) (hlt : rd.data.length < bs.length) :
    (l_File_read os errbuff rd f).results =
      [LuaValue.string (rd.data.takeWhile (fun b => b != 0))] := by
  obtain ⟨hp, hn⟩ := l_File_read_of_success os errbuff rd f hok (Nat.pos_iff_ne_zero.mp hpos)
  have h := cstr_set_overwrite bs rd.data rd.data.length hlt (Nat.le_refl _)
  rw [List.take_length] at h
  simp [Ret.results, hp, hn, raw_read_eq, hbuf, lua_pushstring, h]

/-- The block of an opened File has 2048 bytes. -/
theorem openedFile_buf (h : HANDLE) :
    ∃ bs, (openedFile h).buf = some bs ∧ bs.length = 2048 := by
  refine ⟨(List.range 2048).map (fun _ => 0), rfl, ?_⟩
  simp only [List.length_map, List.length_range]

/-- C5 (fails as stated): on the opened File for handle 5, a successful read in
which the OS delivered the three bytes 65, 0, 66 returns the one-byte string
65, not the three bytes delivered. -/
theorem l_File_read_stops_at_zero_byte :
    (l_File_read sampleOS zeroErrbuff { ok := true, data := [65, 0, 66] }
      (openedFile 5)).results = [LuaValue.string [65]] ∧
    (l_File_read sampleOS zeroErrbuff { ok := true, data := [65, 0, 66] }
      (openedFile 5)).results ≠ [LuaValue.string [65, 0, 66]] := by
  obtain ⟨bs, hbs, hlen⟩ := openedFile_buf 5
  have h := l_File_read_results_of_success sampleOS zeroErrbuff
    { ok := true, data := [65, 0, 66] } (openedFile 5) bs hbs rfl (by simp)
    (by rw [hlen]; simp)
  rw [h]
  simp [List.takeWhile_cons]

/-- C5 as amended: for a successful read in which the OS delivered `n` bytes,
`0 < n < capacity`, the string `l_File_read` returns is the delivered bytes up
to their first zero byte, whatever the block held before the call; when no
delivered byte is zero it is exactly the `n` bytes delivered. -/
theorem l_File_read_returns_text (os : OS) (errbuff : List Nat) (rd : ReadOutcome)
    (f : File) (bs : List Nat) (hbuf : f.buf = some bs) (hok : rd.ok = true)
    (hpos : 0 < rd.data.length) (hlt : rd.data.length < bs.length) :
    (l_File_read os errbuff rd f).nres = 1 ∧
    (l_File_read os errbuff rd f).results =
      [LuaValue.string (rd.data.takeWhile (fun b => b != 0))] ∧
    ((∀ b ∈ rd.data, b ≠ 0) →
      (l_File_read os errbuff rd f).results = [LuaValue.string rd.data]) ∧
    (∀ bs2 : List Nat, bs2.length = bs.length →
      (l_File_read os errbuff rd { f with buf := some bs2 }).results =
        (l_File_read os errbuff rd f).results) := by
  have h := l_File_read_results_of_success os errbuff rd f bs hbuf hok hpos hlt
  refine ⟨(l_File_read_of_success os errbuff rd f hok (Nat.pos_iff_ne_zero.mp hpos)).2,
    h, ?_, ?_⟩
  · intro hz
    rw [h, takeWhile_ne_zero rd.data hz]
  · intro bs2 hlen
    rw [h]
    exact l_File_read_results_of_success os errbuff rd { f with buf := some bs2 } bs2 rfl
      hok hpos (by rw [hlen]; exact hlt)

/-- C5 as amended, on a File with an eight-byte block holding sevens and the
bytes `h`, `i` delivered. -/
theorem l_File_read_returns_text_witness :
    (l_File_read sampleOS zeroErrbuff { ok := true, data := [104, 105] }
      { openedFile 5 with buf := some [7, 7, 7, 7, 7, 7, 7, 7], bufsz := 8 }).results =
      [LuaValue.string [104, 105]] :=
  (l_File_read_returns_text sampleOS zeroErrbuff { ok := true, data := [104, 105] }
    { openedFile 5 with buf := some [7, 7, 7, 7, 7, 7, 7, 7], bufsz := 8 }
    [7, 7, 7, 7, 7, 7, 7, 7] rfl rfl (by simp) (by simp)).2.2.1 (by simp)

/-- C6 (fails on the code): after `l_File_close` on the File that open produces
for handle 5, which passed 5 to `CloseHandle`, `l_File_write` still calls
`WriteFile` on handle 5, and `l_File_read` still calls `ReadFile`, with a null
handle and a null buffer pointer, and then stores the terminating zero through
the null buffer pointer. -/
theorem read_write_after_close_not_rejected :
    closedHandles (l_File_close (openedFile 5)).trace = [5] ∧
    (l_File_write 0 (l_File_close (openedFile 5)).file [120]).trace =
      [Event.WriteFile 5 [120] 1] ∧
    (l_File_read sampleOS zeroErrbuff { ok := false, data := [] }
      (l_File_close (openedFile 5)).file).trace =
      [Event.ReadFile NULL none 2048, Event.bufStore none 0, Event.errbuffStore 2] ∧
    (Event.bufStore none 0).inBounds = false := by
  refine ⟨?_, ?_, ?_, rfl⟩
  · simp [l_File_close_trace, openedFile_eq, closedHandles, NULL, malloc_isSome]
  · simp [l_File_write, l_File_close_file, openedFile_eq, NULL]
  · simp only [l_File_read, raw_read_eq, l_File_close_file, openedFile_eq]
    simp [push_error, last_error, sampleOS, FILE_BUFF_SIZE, toDWORD]

/-! ## Opening a pipe -/

/-- The result of `l_open_pipe` when `CreateFile` returned the invalid handle. -/
theorem l_open_pipe_of_invalid (os : OS) (errbuff : List Nat) (oo : OpenOutcome) (L : Nat)
    (name : Option String) (h : oo.hPipe = INVALID_HANDLE_VALUE) :
    l_open_pipe os errbuff oo L name =
      ([Event.CreateFile (name.getD "\\\\.\\pipe\\luawinapi"),
          Event.errbuffStore (last_error os errbuff 0).idx],
        [LuaValue.nil, LuaValue.string (last_error os errbuff 0).text], 2) := by
  simp [l_open_pipe, h, push_error, push_error_msg, lua_pushstring, ErrText.text]

/-- The result of `l_open_pipe` when `CreateFile` returned any other handle. -/
theorem l_open_pipe_of_valid (os : OS) (errbuff : List Nat) (oo : OpenOutcome) (L : Nat)
    (name : Option String) (h : oo.hPipe ≠ INVALID_HANDLE_VALUE) :
    l_open_pipe os errbuff oo L name =
      ([Event.CreateFile (name.getD "\\\\.\\pipe\\luawinapi"),
          Event.SetNamedPipeHandleState oo.hPipe 3,
          Event.malloc FILE_BUFF_SIZE],
        [LuaValue.userdata
          { oo.udata with
            handle := oo.hPipe
            hWrite := oo.hPipe
            L := L
            buf := malloc oo.junk FILE_BUFF_SIZE
            bufsz := FILE_BUFF_SIZE }], 1) := by
  simp [l_open_pipe, h, push_new_File, File_ctor, lcb_allocate_buffer,
    PIPE_READMODE_MESSAGE, PIPE_NOWAIT]

/-- C7: `l_open_pipe` returns the two values `nil` and a message exactly when
`CreateFile` returned `INVALID_HANDLE_VALUE`, and then neither allocates nor
pushes a File; for every other handle, and whatever `SetNamedPipeHandleState`
answered, it returns one value, a File whose read handle and write handle are
the handle obtained and whose buffer is an allocated block of 2048 bytes. -/
theorem l_open_pipe_result (os : OS) (errbuff : List Nat) (oo : OpenOutcome) (L : Nat)
    (name : Option String) :
    (oo.hPipe = INVALID_HANDLE_VALUE ↔
      ∃ msg, (l_open_pipe os errbuff oo L name).2 =
        ([LuaValue.nil, LuaValue.string msg], 2)) ∧
    (oo.hPipe = INVALID_HANDLE_VALUE →
      Event.malloc FILE_BUFF_SIZE ∉ (l_open_pipe os errbuff oo L name).1 ∧
      ∀ f, LuaValue.userdata f ∉ (l_open_pipe os errbuff oo L name).2.1) ∧
    (oo.hPipe ≠ INVALID_HANDLE_VALUE ↔
      ∃ f bs, (l_open_pipe os errbuff oo L name).2 = ([LuaValue.userdata f], 1) ∧
        f.handle = oo.hPipe ∧ f.hWrite = oo.hPipe ∧
        f.buf = some bs ∧ bs.length = 2048 ∧ f.bufsz = 2048) ∧
    (∀ b, l_open_pipe os errbuff { oo with modeOk := b } L name =
      l_open_pipe os errbuff oo L name) := by
  have hblock : ∃ bs, malloc oo.junk FILE_BUFF_SIZE = some bs ∧ bs.length = 2048 := by
    refine ⟨(List.range 2048).map oo.junk, rfl, ?_⟩
    simp only [List.length_map, List.length_range]
  by_cases h : oo.hPipe = INVALID_HANDLE_VALUE
  · have e := l_open_pipe_of_invalid os errbuff oo L name h
    refine ⟨?_, ?_, ?_, ?_⟩
    · simp [e, h]
    · intro _
      simp [e]
    · simp [e, h]
    · intro b
      rw [e, l_open_pipe_of_invalid os errbuff { oo with modeOk := b } L name h]
  · have e := l_open_pipe_of_valid os errbuff oo L name h
    obtain ⟨bs, hbs, hlen⟩ := hblock
    refine ⟨?_, fun hi => absurd hi h, ?_, ?_⟩
    · simp [e, h]
    · exact ⟨fun _ => ⟨_, bs, by rw [e], rfl, rfl, hbs, hlen, rfl⟩, fun _ => h⟩
    · intro b
      rw [e, l_open_pipe_of_valid os errbuff { oo with modeOk := b } L name h]

/-- C7 at two outcomes with the mode call failing: handle 5 gives one File with
both handles 5 and a 2048-byte block, the invalid handle gives `nil` and a
message. -/
theorem l_open_pipe_result_witness :
    (∃ f bs,
      (l_open_pipe sampleOS zeroErrbuff
        { hPipe := 5, modeOk := false, udata := openedFile 0, junk := fun _ => 0 } 0 none).2 =
        ([LuaValue.userdata f], 1) ∧
      f.handle = 5 ∧ f.hWrite = 5 ∧ f.buf = some bs ∧ bs.length = 2048 ∧ f.bufsz = 2048) ∧
    (∃ msg,
      (l_open_pipe sampleOS zeroErrbuff
        { hPipe := INVALID_HANDLE_VALUE, modeOk := false, udata := openedFile 0,
          junk := fun _ => 0 } 0 none).2 =
        ([LuaValue.nil, LuaValue.string msg], 2)) :=
  ⟨(l_open_pipe_result sampleOS zeroErrbuff
      { hPipe := 5, modeOk := false, udata := openedFile 0, junk := fun _ => 0 } 0
      none).2.2.1.mp (by simp [INVALID_HANDLE_VALUE]),
    (l_open_pipe_result sampleOS zeroErrbuff
      { hPipe := INVALID_HANDLE_VALUE, modeOk := false, udata := openedFile 0,
        junk := fun _ => 0 } 0 none).1.mp rfl⟩

/-! ## Error text -/

/-- The index `last_error` stores its zero at: the length of the message minus
two. -/
theorem last_error_idx (os : OS) (errbuff : List Nat) (err : Int) :
    (last_error os errbuff err).idx =
      ((os.message (if err = 0 then os.lastError else err)).length : Int) - 2 := by
  rfl

/-- The string `last_error` returns for a message of at least two bytes that
fits the buffer: the message without its last two bytes, up to the first zero
byte of what remains. -/
theorem last_error_text (os : OS) (errbuff : List Nat) (err : Int)
    (hbuf : errbuff.length = ERRBUFF_SIZE)
    (h2 : 2 ≤ (os.message (if err = 0 then os.lastError else err)).length)
    (hfit : (os.message (if err = 0 then os.lastError else err)).length ≤ ERRBUFF_SIZE) :
    (last_error os errbuff err).text =
      ((os.message (if err = 0 then os.lastError else err)).take
        ((os.message (if err = 0 then os.lastError else err)).length - 2)).takeWhile
        (fun b => b != 0) := by
  generalize hm : os.message (if err = 0 then os.lastError else err) = m at h2 hfit
  have hidx : 0 ≤ (m.length : Int) - 2 := by omega
  have hnat : ((m.length : Int) - 2).toNat = m.length - 2 := by omega
  have e : (last_error os errbuff err).errbuff =
      (overwrite errbuff (m ++ [0])).set (m.length - 2) 0 := by
    simp only [last_error, FormatMessage, hm, hidx, if_true, hnat]
  have hi : m.length - 2 < errbuff.length := by
    rw [hbuf]; simp only [ERRBUFF_SIZE] at hfit ⊢; omega
  have hs : m.length - 2 ≤ (m ++ [0]).length := by simp; omega
  rw [ErrText.text, e, cstr_set_overwrite errbuff (m ++ [0]) (m.length - 2) hi hs,
    List.take_append_of_le_length (Nat.sub_le _ _)]

/-- The static buffer before its first use has the declared size. -/
theorem zeroErrbuff_length : zeroErrbuff.length = ERRBUFF_SIZE := by
  simp [zeroErrbuff]

/-- C10 (fails on the code): when the lookup fails and writes the empty message
(`sz = 0`), `last_error` stores the terminating zero at index -2, in front of
the 256-byte buffer; for a one-byte message it stores it at index -1; and for
the three-byte message `abc`, which does not end in CR LF, it returns `a`
instead of the message itself. -/
theorem last_error_stores_before_buffer :
    (last_error { lastError := 232, message := fun _ => [] } zeroErrbuff 0).idx = -2 ∧
    (Event.errbuffStore
      (last_error { lastError := 232, message := fun _ => [] } zeroErrbuff 0).idx).inBounds
      = false ∧
    (last_error { lastError := 232, message := fun _ => [63] } zeroErrbuff 0).idx = -1 ∧
    (Event.errbuffStore
      (last_error { lastError := 232, message := fun _ => [63] } zeroErrbuff 0).idx).inBounds
      = false ∧
    (last_error { lastError := 232, message := fun _ => [97, 98, 99] } zeroErrbuff 0).text
      = [97] ∧
    (last_error { lastError := 232, message := fun _ => [97, 98, 99] } zeroErrbuff 0).text
      ≠ [97, 98, 99] := by
  have h := last_error_text { lastError := 232, message := fun _ => [97, 98, 99] }
    zeroErrbuff 0 zeroErrbuff_length (by simp) (by simp [ERRBUFF_SIZE])
  refine ⟨rfl, ?_, rfl, ?_, ?_, ?_⟩
  · rw [last_error_idx]; simp [Event.inBounds]
  · rw [last_error_idx]; simp [Event.inBounds]
  · rw [h]; simp [List.takeWhile_cons]
  · rw [h]; simp [List.takeWhile_cons]

end WinPipe
